import Mathlib

/-!
Verification development for the authorization-and-workflow core of the
`sh_trade_backend` repository: the RBAC permission compiler and resolver
(`src/tools/rbac_manager.py`, `src/provider/auth.py`), the trade lifecycle
state machine and its validity guards (`src/provider/trade/basic.py`), and
the staged callback pipeline with its notification-sender client
(`src/tools/callback_manager.py`, `src/provider/notification/basic.py`).

Python dictionaries keyed by roles are embedded as total functions
`Nat → Finset Nat` where an absent key is represented by the empty set;
this is observationally faithful because every dictionary read performed by
the compiler either follows a `setdefault(role, set())` or uses
`.get(key, {})` / `.get(key, set())` with an empty default.  Role and
permission identifiers (strings in the source) are embedded as naturals.
-/

namespace STB

/-- Pointwise update of a role-indexed map, the embedding of Python dict
assignment `compiled[role] = s` for the role-permission working table. -/
def updF (f : Nat → Finset Nat) (i : Nat) (v : Finset Nat) : Nat → Finset Nat :=
  fun j => if j = i then v else f j

theorem updF_same (f : Nat → Finset Nat) (i : Nat) (v : Finset Nat) :
    updF f i v i = v := by
  simp [updF]

theorem updF_ne (f : Nat → Finset Nat) {i j : Nat} (v : Finset Nat) (h : j ≠ i) :
    updF f i v j = f j := by
  simp [updF, h]

/-- The static RBAC configuration consumed by `RBACManager.__init__`:
the declared role set (embedded as the list giving the iteration order in
which `_compile_permissions` processes `self.roles`), the
`role_inheritance` map (`.get(role, {})` makes absent keys the empty
collection, so a total function into lists is faithful; the list gives the
iteration order over the directly inherited roles), and the
`role_permissions` grant map (absent keys behave as the empty set). -/
structure RBACGraph where
  roles : List Nat
  role_inheritance : Nat → List Nat
  role_permissions : Nat → Finset Nat

/-- One step of the inner loop of `RBACManager._compile_permissions`
(lines 108–116): starting from the current working set of `r`, union in the
current working set of every directly inherited role.  In-place mutation of
`compiled[role]` is observationally equal to this fold because within the
body only the entry of `r` is written. -/
def propagateOne (inh : List Nat) (c : Nat → Finset Nat) (r : Nat) : Finset Nat :=
  inh.foldl (fun acc ir => acc ∪ c ir) (c r)

/-- One full pass of the `for role in self.roles` loop of
`_compile_permissions`: process the listed roles in order, threading the
working table, and report whether any role's set grew during the pass
(Python compares the cardinality before and after; since the update only
ever adds elements, strict growth is equivalent to inequality of sets). -/
def compilePass (g : RBACGraph) : (Nat → Finset Nat) → List Nat → (Nat → Finset Nat) × Bool
  | c, [] => (c, false)
  | c, r :: rest =>
      let newR := propagateOne (g.role_inheritance r) c r
      let grew : Bool := if newR = c r then false else true
      let next := compilePass g (updF c r newR) rest
      (next.1, grew || next.2)

/-- The `while mutated` loop of `_compile_permissions` with its iteration
budget: the source raises `RBACError` when `iteration_count` exceeds 50,
i.e. after 50 executed passes the 50th still reported growth.  `fuel` is
the number of passes that may still execute; the top-level call uses 50. -/
def compileLoop (g : RBACGraph) : (Nat → Finset Nat) → Nat → Except String (Nat → Finset Nat)
  | _, 0 =>
      .error "Failed to compile permission list since max compile iteration reached. "
  | c, fuel + 1 =>
      let p := compilePass g c g.roles
      if p.2 then compileLoop g p.1 fuel else .ok p.1

/-- Embedding of `RBACManager._compile_permissions`
(src/tools/rbac_manager.py lines 85–138): start from a deep copy of the
grant map and iterate passes until a pass produces no growth, erroring out
when the 50-iteration budget is exhausted. -/
def compilePermissions (g : RBACGraph) : Except String (Nat → Finset Nat) :=
  compileLoop g g.role_permissions 50

/-- The compiled closure of one role, as an `Except` value so that the
iteration-budget failure of `_compile_permissions` stays observable. -/
def compiledAt (g : RBACGraph) (r : Nat) : Except String (Finset Nat) :=
  (compilePermissions g).map fun c => c r

/-- Decidable equality for `Except` results, so that concrete compiler runs
can be settled by `decide`. -/
instance instDecEqExcept {e a : Type} [DecidableEq e] [DecidableEq a] :
    DecidableEq (Except e a) := fun
  | .error x, .error y =>
      if h : x = y then .isTrue (by rw [h]) else .isFalse (by simp [h])
  | .error _, .ok _ => .isFalse (by simp)
  | .ok _, .error _ => .isFalse (by simp)
  | .ok x, .ok y =>
      if h : x = y then .isTrue (by rw [h]) else .isFalse (by simp [h])

theorem mem_foldl_union (c : Nat → Finset Nat) (p : Nat) (l : List Nat)
    (init : Finset Nat) :
    p ∈ l.foldl (fun acc ir => acc ∪ c ir) init ↔
      p ∈ init ∨ ∃ ir ∈ l, p ∈ c ir := by
  induction l generalizing init with
  | nil => simp
  | cons ir0 rest ih =>
      simp only [List.foldl_cons, ih, Finset.mem_union, List.mem_cons]
      constructor
      · rintro ((h | h) | ⟨ir, hir, hp⟩)
        · exact .inl h
        · exact .inr ⟨ir0, .inl rfl, h⟩
        · exact .inr ⟨ir, .inr hir, hp⟩
      · rintro (h | ⟨ir, rfl | hir, hp⟩)
        · exact .inl (.inl h)
        · exact .inl (.inr hp)
        · exact .inr ⟨ir, hir, hp⟩

theorem subset_foldl_union (c : Nat → Finset Nat) (l : List Nat)
    (init : Finset Nat) :
    init ⊆ l.foldl (fun acc ir => acc ∪ c ir) init :=
  fun p hp => (mem_foldl_union c p l init).mpr (.inl hp)

theorem foldl_union_eq_of_subset (c : Nat → Finset Nat) (l : List Nat)
    (init : Finset Nat) (h : ∀ ir ∈ l, c ir ⊆ init) :
    l.foldl (fun acc ir => acc ∪ c ir) init = init := by
  apply Finset.Subset.antisymm _ (subset_foldl_union c l init)
  intro p hp
  rcases (mem_foldl_union c p l init).mp hp with h0 | ⟨ir, hir, hp'⟩
  · exact h0
  · exact h ir hir hp'

theorem updF_self_eq (c : Nat → Finset Nat) (r : Nat) : updF c r (c r) = c := by
  funext j
  by_cases h : j = r
  · subst h; simp [updF]
  · simp [updF, h]

/-- Transitive reachability along the inheritance relation, starting from a
role and stepping only through roles that appear in the configured role
list (these are exactly the roles the compiler propagates into). -/
inductive Reaches (g : RBACGraph) : Nat → Nat → Prop
  | refl (r : Nat) : Reaches g r r
  | step {r ir r2 : Nat} : r ∈ g.roles → ir ∈ g.role_inheritance r →
      Reaches g ir r2 → Reaches g r r2

/-- Every permission in the working table is justified by a grant of some
reachable role. -/
def Sound (g : RBACGraph) (c : Nat → Finset Nat) : Prop :=
  ∀ r p, p ∈ c r → ∃ r2, Reaches g r r2 ∧ p ∈ g.role_permissions r2

/-- The working table is closed under one-step propagation for every
configured role. -/
def PreFixed (g : RBACGraph) (c : Nat → Finset Nat) : Prop :=
  ∀ r ∈ g.roles, ∀ ir ∈ g.role_inheritance r, c ir ⊆ c r

theorem compilePass_mono (g : RBACGraph) (l : List Nat) :
    ∀ (c : Nat → Finset Nat) (r : Nat), c r ⊆ (compilePass g c l).1 r := by
  induction l with
  | nil => intro c r; simp [compilePass]
  | cons r0 rest ih =>
      intro c r
      show c r ⊆ (compilePass g (updF c r0 (propagateOne (g.role_inheritance r0) c r0)) rest).1 r
      refine Finset.Subset.trans ?_ (ih _ r)
      by_cases h : r = r0
      · subst h
        rw [updF_same]
        exact subset_foldl_union _ _ _
      · rw [updF_ne _ _ h]

theorem compilePass_sound (g : RBACGraph) (l : List Nat)
    (hl : ∀ r ∈ l, r ∈ g.roles) :
    ∀ (c : Nat → Finset Nat), Sound g c → Sound g (compilePass g c l).1 := by
  induction l with
  | nil => intro c hc; simpa [compilePass] using hc
  | cons r0 rest ih =>
      intro c hc
      show Sound g (compilePass g (updF c r0 (propagateOne (g.role_inheritance r0) c r0)) rest).1
      refine ih (fun r hr => hl r (.tail _ hr)) _ ?_
      intro r p hp
      by_cases h : r = r0
      · subst h
        rw [updF_same] at hp
        rcases (mem_foldl_union c p _ _).mp hp with hp0 | ⟨ir, hir, hp'⟩
        · exact hc r p hp0
        · obtain ⟨r2, hre, hg⟩ := hc ir p hp'
          exact ⟨r2, .step (hl r (.head _)) hir hre, hg⟩
      · rw [updF_ne _ _ h] at hp
        exact hc r p hp

theorem compilePass_no_growth (g : RBACGraph) (l : List Nat) :
    ∀ (c c' : Nat → Finset Nat), compilePass g c l = (c', false) →
      c' = c ∧ ∀ r ∈ l, ∀ ir ∈ g.role_inheritance r, c ir ⊆ c r := by
  induction l with
  | nil =>
      intro c c' h
      simp only [compilePass, Prod.mk.injEq] at h
      exact ⟨h.1.symm, by simp⟩
  | cons r0 rest ih =>
      intro c c' h
      simp only [compilePass, Prod.mk.injEq, Bool.or_eq_false_iff] at h
      obtain ⟨h1, hgrew, hnext⟩ := h
      have heq : propagateOne (g.role_inheritance r0) c r0 = c r0 := by
        by_contra hne
        simp only [if_neg hne] at hgrew
        exact Bool.noConfusion hgrew
      rw [heq, updF_self_eq] at h1 hnext
      have hpair : compilePass g c rest = (c', false) := by
        rcases hp : compilePass g c rest with ⟨c2, b2⟩
        rw [hp] at h1 hnext
        simp only at h1 hnext
        rw [h1, hnext]
      obtain ⟨hc, hrest⟩ := ih c c' hpair
      refine ⟨hc, ?_⟩
      intro r hr ir hir
      rcases List.mem_cons.mp hr with rfl | hr'
      · intro p hp
        rw [← heq]
        exact (mem_foldl_union c p _ _).mpr (.inr ⟨ir, hir, hp⟩)
      · exact hrest r hr' ir hir

theorem compilePass_cons (g : RBACGraph) (c : Nat → Finset Nat) (r0 : Nat)
    (rest : List Nat) :
    compilePass g c (r0 :: rest) =
      ((compilePass g (updF c r0 (propagateOne (g.role_inheritance r0) c r0)) rest).1,
        (if propagateOne (g.role_inheritance r0) c r0 = c r0 then false else true) ||
          (compilePass g (updF c r0 (propagateOne (g.role_inheritance r0) c r0)) rest).2) :=
  rfl

theorem compilePass_of_preFixed (g : RBACGraph) (l : List Nat) :
    ∀ (c : Nat → Finset Nat),
      (∀ r ∈ l, ∀ ir ∈ g.role_inheritance r, c ir ⊆ c r) →
      compilePass g c l = (c, false) := by
  induction l with
  | nil => intro c _; rfl
  | cons r0 rest ih =>
      intro c h
      have heq : propagateOne (g.role_inheritance r0) c r0 = c r0 :=
        foldl_union_eq_of_subset c _ _ (h r0 (.head _))
      rw [compilePass_cons, heq, updF_self_eq, if_pos rfl,
        ih c (fun r hr => h r (.tail _ hr))]
      rfl

theorem compileLoop_ok (g : RBACGraph) :
    ∀ (fuel : Nat) (c cf : Nat → Finset Nat), compileLoop g c fuel = .ok cf →
      Sound g c → Sound g cf ∧ (∀ r, c r ⊆ cf r) ∧ PreFixed g cf := by
  intro fuel
  induction fuel with
  | zero => intro c cf h; exact absurd h (by simp [compileLoop])
  | succ fuel ih =>
      intro c cf h hs
      have hdef : compileLoop g c (fuel + 1) =
          (if (compilePass g c g.roles).2
            then compileLoop g (compilePass g c g.roles).1 fuel
            else .ok (compilePass g c g.roles).1) := rfl
      rw [hdef] at h
      rcases hp : compilePass g c g.roles with ⟨c1, b1⟩
      rw [hp] at h
      cases b1 with
      | true =>
          simp only [if_pos] at h
          have hs1 : Sound g c1 := by
            have := compilePass_sound g g.roles (fun r hr => hr) c hs
            rwa [hp] at this
          obtain ⟨ha, hb, hc⟩ := ih c1 cf h hs1
          refine ⟨ha, fun r => Finset.Subset.trans ?_ (hb r), hc⟩
          have := compilePass_mono g g.roles c r
          rwa [hp] at this
      | false =>
          simp only [if_neg, Bool.false_eq_true, not_false_iff, reduceIte,
            Except.ok.injEq] at h
          obtain ⟨hc1, hpre⟩ := compilePass_no_growth g g.roles c c1 hp
          subst h
          rw [hc1]
          exact ⟨hs, fun r => Finset.Subset.refl _, hc1 ▸ hpre⟩

theorem reaches_grants_subset (g : RBACGraph) {c : Nat → Finset Nat}
    (hg : ∀ r, g.role_permissions r ⊆ c r) (hpre : PreFixed g c) {r r2 : Nat}
    (h : Reaches g r r2) : g.role_permissions r2 ⊆ c r := by
  induction h with
  | refl r => exact hg r
  | step hr hir _ ih => exact ih.trans (hpre _ hr _ hir)

/-- Characterization of successful compilation: whenever
`_compile_permissions` finishes within its iteration budget, the closure of
a role is exactly the union of the direct grants of all roles it reaches
through inheritance. -/
theorem compilePermissions_ok_iff (g : RBACGraph) {cf : Nat → Finset Nat}
    (h : compilePermissions g = .ok cf) (r p : Nat) :
    p ∈ cf r ↔ ∃ r2, Reaches g r r2 ∧ p ∈ g.role_permissions r2 := by
  have hs : Sound g g.role_permissions := fun r p hp => ⟨r, .refl r, hp⟩
  obtain ⟨hsou, hsub, hpre⟩ := compileLoop_ok g 50 _ cf h hs
  constructor
  · exact fun hp => hsou r p hp
  · rintro ⟨r2, hre, hp⟩
    exact reaches_grants_subset g hsub hpre hre hp

theorem reaches_congr {g1 g2 : RBACGraph}
    (hroles : ∀ x, x ∈ g1.roles ↔ x ∈ g2.roles)
    (hinh : g1.role_inheritance = g2.role_inheritance) {r r2 : Nat}
    (h : Reaches g1 r r2) : Reaches g2 r r2 := by
  induction h with
  | refl r => exact .refl r
  | step hr hir _ ih => exact .step ((hroles _).mp hr) (hinh ▸ hir) ih

theorem compileLoop_of_preFixed (g : RBACGraph) (c : Nat → Finset Nat)
    (h : PreFixed g c) (fuel : Nat) : compileLoop g c (fuel + 1) = .ok c := by
  have hdef : compileLoop g c (fuel + 1) =
      (if (compilePass g c g.roles).2
        then compileLoop g (compilePass g c g.roles).1 fuel
        else .ok (compilePass g c g.roles).1) := rfl
  rw [hdef, compilePass_of_preFixed g g.roles c h]
  rfl

theorem compileLoop_two (g : RBACGraph) (c : Nat → Finset Nat) (fuel : Nat)
    (h : PreFixed g (compilePass g c g.roles).1) :
    compileLoop g c (fuel + 2) = .ok (compilePass g c g.roles).1 := by
  have hdef : compileLoop g c (fuel + 2) =
      (if (compilePass g c g.roles).2
        then compileLoop g (compilePass g c g.roles).1 (fuel + 1)
        else .ok (compilePass g c g.roles).1) := rfl
  rw [hdef]
  cases hb : (compilePass g c g.roles).2
  · simp
  · simp [compileLoop_of_preFixed g _ h fuel]

theorem compilePermissions_recompile (g : RBACGraph) {cf : Nat → Finset Nat}
    (h : compilePermissions g = .ok cf) :
    compilePermissions { g with role_permissions := cf } = .ok cf := by
  have hs : Sound g g.role_permissions := fun r p hp => ⟨r, .refl r, hp⟩
  obtain ⟨_, _, hpre⟩ := compileLoop_ok g 50 _ cf h hs
  exact compileLoop_of_preFixed { g with role_permissions := cf } cf hpre 49

/-- Success test for an `Except` value (Python: no exception raised). -/
def isOkE {e a : Type} : Except e a → Bool
  | .ok _ => true
  | .error _ => false

/-- A two-role inheritance cycle: role 0 inherits role 1 and role 1
inherits role 0, with direct grant sets `P` and `Q` respectively; `o` is
the processing order of the role set. -/
def cycleGraphO (o : List Nat) (P Q : Finset Nat) : RBACGraph where
  roles := o
  role_inheritance := fun r => if r = 0 then [1] else if r = 1 then [0] else []
  role_permissions := fun r => if r = 0 then P else if r = 1 then Q else ∅

theorem cycle_pass_eq (P Q : Finset Nat) :
    (compilePass (cycleGraphO [0, 1] P Q)
        (cycleGraphO [0, 1] P Q).role_permissions [0, 1]).1 =
      updF (updF (cycleGraphO [0, 1] P Q).role_permissions 0 (P ∪ Q)) 1
        (Q ∪ (P ∪ Q)) := by
  rw [compilePass_cons, compilePass_cons]
  have e1 : propagateOne ((cycleGraphO [0, 1] P Q).role_inheritance 0)
      (cycleGraphO [0, 1] P Q).role_permissions 0 = P ∪ Q := by
    simp [propagateOne, cycleGraphO]
  rw [e1]
  have e2 : propagateOne ((cycleGraphO [0, 1] P Q).role_inheritance 1)
      (updF (cycleGraphO [0, 1] P Q).role_permissions 0 (P ∪ Q)) 1 =
      Q ∪ (P ∪ Q) := by
    simp [propagateOne, cycleGraphO, updF]
  rw [e2]
  rfl

/-- C2: compiling the two-role cyclic graph terminates without hitting the
iteration budget and gives both roles the same closure, the union of the
two direct grant sets. -/
theorem cycle_graph_compiles_to_union (P Q : Finset Nat) :
    compiledAt (cycleGraphO [0, 1] P Q) 0 = .ok (P ∪ Q) ∧
    compiledAt (cycleGraphO [0, 1] P Q) 1 = .ok (P ∪ Q) := by
  have hqu : Q ∪ (P ∪ Q) = P ∪ Q := by
    ext x; simp [Finset.mem_union]; tauto
  have hpre : PreFixed (cycleGraphO [0, 1] P Q)
      (compilePass (cycleGraphO [0, 1] P Q)
        (cycleGraphO [0, 1] P Q).role_permissions [0, 1]).1 := by
    rw [cycle_pass_eq]
    intro r hr ir hir
    have hr2 : r = 0 ∨ r = 1 := by simpa [cycleGraphO] using hr
    rcases hr2 with rfl | rfl
    · have : ir = 1 := by simpa [cycleGraphO] using hir
      subst this
      rw [updF_same, updF_ne _ _ (by decide), updF_same, hqu]
    · have : ir = 0 := by simpa [cycleGraphO] using hir
      subst this
      rw [updF_same, updF_ne _ _ (by decide), updF_same, hqu]
  have hloop : compileLoop (cycleGraphO [0, 1] P Q)
      (cycleGraphO [0, 1] P Q).role_permissions 50 =
      .ok (compilePass (cycleGraphO [0, 1] P Q)
        (cycleGraphO [0, 1] P Q).role_permissions [0, 1]).1 :=
    compileLoop_two (cycleGraphO [0, 1] P Q)
      (cycleGraphO [0, 1] P Q).role_permissions 48 hpre
  have hval : compilePermissions (cycleGraphO [0, 1] P Q) =
      .ok (updF (updF (cycleGraphO [0, 1] P Q).role_permissions 0 (P ∪ Q)) 1
        (Q ∪ (P ∪ Q))) := by
    rw [compilePermissions]
    rw [hloop, cycle_pass_eq]
  constructor
  · rw [compiledAt, hval]
    show Except.ok (updF (updF _ 0 (P ∪ Q)) 1 (Q ∪ (P ∪ Q)) 0) = _
    rw [updF_ne _ _ (by decide), updF_same]
  · rw [compiledAt, hval]
    show Except.ok (updF (updF _ 0 (P ∪ Q)) 1 (Q ∪ (P ∪ Q)) 1) = _
    rw [updF_same, hqu]

/-- A graph whose single declared role 0 inherits from an identifier `z`
that is not declared in the role list; `z` may still appear as a key of the
grant map (with grants `Q`). -/
def ghostGraph (P Q : Finset Nat) (z : Nat) : RBACGraph where
  roles := [0]
  role_inheritance := fun r => if r = 0 then [z] else []
  role_permissions := fun r => if r = 0 then P else if r = z then Q else ∅

/-- C7 counterexample: a role graph whose inheritance map references the
undeclared role 5 is not rejected — `_compile_permissions` succeeds, and
role 0's closure is exactly its own grants, the undeclared reference having
contributed the empty set. -/
theorem undeclared_reference_not_rejected :
    compiledAt (ghostGraph {1} ∅ 5) 0 = .ok {1} ∧
    isOkE (compilePermissions (ghostGraph {1} ∅ 5)) = true ∧
    5 ∉ (ghostGraph {1} ∅ 5).roles := by
  refine ⟨by decide, by decide, by decide⟩

/-- C7 as amended: permission compilation performs no validation of role
references.  For any graph whose declared role 0 inherits from an
undeclared identifier `z`, compilation succeeds silently; the undeclared
role contributes its grant-map entry `Q` when one exists (the deep copy of
`role_permissions` retains keys that are not declared roles) and the empty
set otherwise. -/
theorem undeclared_reference_silently_used (P Q : Finset Nat) (z : Nat)
    (hz : z ≠ 0) :
    compiledAt (ghostGraph P Q z) 0 = .ok (P ∪ Q) ∧
    z ∉ (ghostGraph P Q z).roles := by
  have hperm : (ghostGraph P Q z).role_permissions z = Q := by
    simp [ghostGraph, hz]
  have hpassv : (compilePass (ghostGraph P Q z)
      (ghostGraph P Q z).role_permissions [0]).1 =
      updF (ghostGraph P Q z).role_permissions 0 (P ∪ Q) := by
    rw [compilePass_cons]
    have e1 : propagateOne ((ghostGraph P Q z).role_inheritance 0)
        (ghostGraph P Q z).role_permissions 0 = P ∪ Q := by
      simp [propagateOne, ghostGraph, hz]
    rw [e1]
    rfl
  have hpre : PreFixed (ghostGraph P Q z)
      (compilePass (ghostGraph P Q z)
        (ghostGraph P Q z).role_permissions [0]).1 := by
    rw [hpassv]
    intro r hr ir hir
    have hr0 : r = 0 := by simpa [ghostGraph] using hr
    subst hr0
    have hirz : ir = z := by simpa [ghostGraph] using hir
    subst hirz
    rw [updF_same, updF_ne _ _ hz, hperm]
    exact Finset.subset_union_right
  have hloop := compileLoop_two (ghostGraph P Q z)
    (ghostGraph P Q z).role_permissions 48 hpre
  refine ⟨?_, by simp [ghostGraph]; exact hz⟩
  rw [compiledAt, compilePermissions]
  rw [show (ghostGraph P Q z).roles = [0] from rfl] at hloop
  rw [hloop, hpassv]
  show Except.ok (updF (ghostGraph P Q z).role_permissions 0 (P ∪ Q) 0) = _
  rw [updF_same]

/-- C7 amended witness: the generic statement applied at the concrete graph
where role 0 inherits the undeclared identifier 5 that carries grant set
{9} in the grant map. -/
theorem undeclared_reference_silently_used_witness :
    compiledAt (ghostGraph {1} {9} 5) 0 = .ok ({1} ∪ {9}) ∧
    5 ∉ (ghostGraph {1} {9} 5).roles :=
  undeclared_reference_silently_used {1} {9} 5 (by decide)

/-- A linear inheritance chain on roles 0..51: role `i` inherits role
`i + 1` for `i < 51`, and only role 51 has a direct grant.  `o` is the
processing order of the role set. -/
def chainGraph (o : List Nat) : RBACGraph where
  roles := o
  role_inheritance := fun r => if r < 51 then [r + 1] else []
  role_permissions := fun r => if r = 51 then {7} else ∅

/-- C8 counterexample: the same 52-role chain compiles under the
descending processing order (two passes suffice) but exhausts the 50-pass
iteration budget under the ascending order, so compilation under one
permutation of the role set yields closures while the other raises
`RBACError` — the result is not independent of the iteration order. -/
theorem chain_order_dependent :
    isOkE (compilePermissions (chainGraph (List.range 52))) = false ∧
    compiledAt (chainGraph ((List.range 52).reverse)) 0 = .ok {7} ∧
    (chainGraph (List.range 52)).roles.Perm
      (chainGraph ((List.range 52).reverse)).roles ∧
    (chainGraph (List.range 52)).role_inheritance =
      (chainGraph ((List.range 52).reverse)).role_inheritance ∧
    (chainGraph (List.range 52)).role_permissions =
      (chainGraph ((List.range 52).reverse)).role_permissions := by
  refine ⟨by decide, by decide, by decide, rfl, rfl⟩

/-- C8 as amended: whenever compilation succeeds (the iteration budget is
not hit), the result is deterministic and independent of the processing
order of the role set — any two permutations that both compile give every
role an identical closure; each pass is monotone (a role's working set
only grows); and recompiling a graph whose grant map is already a compiled
result reproduces exactly the same closures.  Order independence of
success itself fails at the 50-pass budget, as `chain_order_dependent`
shows. -/
theorem compile_order_independent_monotone_idempotent :
    (∀ g1 g2 : RBACGraph, g1.role_inheritance = g2.role_inheritance →
      g1.role_permissions = g2.role_permissions → g1.roles.Perm g2.roles →
      ∀ c1 c2, compilePermissions g1 = .ok c1 →
        compilePermissions g2 = .ok c2 → ∀ r, c1 r = c2 r) ∧
    (∀ (g : RBACGraph) (c : Nat → Finset Nat) (r : Nat),
      c r ⊆ (compilePass g c g.roles).1 r) ∧
    (∀ (g : RBACGraph) (c : Nat → Finset Nat), compilePermissions g = .ok c →
      compilePermissions { g with role_permissions := c } = .ok c) := by
  refine ⟨?_, fun g c r => compilePass_mono g g.roles c r,
    fun g c h => compilePermissions_recompile g h⟩
  intro g1 g2 hinh hperm hp c1 c2 h1 h2 r
  apply Finset.ext
  intro p
  rw [compilePermissions_ok_iff g1 h1 r p, compilePermissions_ok_iff g2 h2 r p]
  constructor
  · rintro ⟨r2, hre, hg⟩
    exact ⟨r2, reaches_congr (fun x => hp.mem_iff) hinh hre, hperm ▸ hg⟩
  · rintro ⟨r2, hre, hg⟩
    exact ⟨r2, reaches_congr (fun x => hp.symm.mem_iff) hinh.symm hre,
      hperm.symm ▸ hg⟩

theorem isOkE_eq_true {e a : Type} {x : Except e a} (h : isOkE x = true) :
    ∃ v, x = .ok v := by
  cases x with
  | ok v => exact ⟨v, rfl⟩
  | error _ => exact absurd h (by simp [isOkE])

/-- C8 amended witness: order independence applied to the two-role cycle
compiled under its two processing orders. -/
theorem compile_order_independent_witness :
    compiledAt (cycleGraphO [0, 1] {10} {20}) 0 =
      compiledAt (cycleGraphO [1, 0] {10} {20}) 0 := by
  obtain ⟨c1, hc1⟩ := isOkE_eq_true
    (x := compilePermissions (cycleGraphO [0, 1] {10} {20})) (by decide)
  obtain ⟨c2, hc2⟩ := isOkE_eq_true
    (x := compilePermissions (cycleGraphO [1, 0] {10} {20})) (by decide)
  have h := compile_order_independent_monotone_idempotent.1
    (cycleGraphO [0, 1] {10} {20}) (cycleGraphO [1, 0] {10} {20})
    rfl rfl (by decide) c1 c2 hc1 hc2
  rw [compiledAt, compiledAt, hc1, hc2]
  exact congrArg (fun s => (Except.ok s : Except String (Finset Nat))) (h 0)

/-- The payload of `exc.PermissionError` as raised by
`check_user_permission` (src/provider/auth.py line 144): the attempted role
set and the required permission set. -/
structure PermissionErrorE where
  roles : List Nat
  permissions : Finset Nat
deriving DecidableEq

/-- Modelled from the spec: `RBACManager.check_role_has_all_permissions` is
invoked at src/provider/auth.py line 139 but its definition is not present
in the source snapshot (src/tools/rbac_manager.py ends with the
single-permission variant `check_role_has_permission`).  Spec §4.2: the
check "tests whether that single role's compiled closure is a superset of
the entire required set"; here the Boolean verdict stands for
pass/`InsufficientPermission`. -/
def check_role_has_all_permissions (compiled : Nat → Finset Nat) (role : Nat)
    (required : Finset Nat) : Bool :=
  decide (required ⊆ compiled role)

/-- The `for role in role_set` loop of `check_user_permission`: `true` as
soon as one role passes the whole-set check, `false` when the loop falls
through (each failed role's `InsufficientPermission` being swallowed). -/
def anyRoleHasAll (compiled : Nat → Finset Nat) (required : Finset Nat) :
    List Nat → Bool
  | [] => false
  | r :: rest =>
      check_role_has_all_permissions compiled r required ||
        anyRoleHasAll compiled required rest

/-- Embedding of `check_user_permission` (src/provider/auth.py lines
108–144): return `True` at the first actor role whose closure covers the
whole required set, otherwise raise `exc.PermissionError` carrying the
attempted role set and the required permission set. -/
def check_user_permission (compiled : Nat → Finset Nat) (role_set : List Nat)
    (required : Finset Nat) : Except PermissionErrorE Bool :=
  if anyRoleHasAll compiled required role_set then .ok true
  else .error ⟨role_set, required⟩

/-- Closures for the example of the claim: the actor holds role 0 with
compiled closure {10} and role 1 with compiled closure {20}. -/
def exampleClosures : Nat → Finset Nat :=
  fun r => if r = 0 then {10} else if r = 1 then {20} else ∅

theorem anyRoleHasAll_eq_true_iff (compiled : Nat → Finset Nat)
    (required : Finset Nat) (l : List Nat) :
    anyRoleHasAll compiled required l = true ↔
      ∃ r ∈ l, required ⊆ compiled r := by
  induction l with
  | nil => simp [anyRoleHasAll]
  | cons r rest ih =>
      simp only [anyRoleHasAll, check_role_has_all_permissions,
        Bool.or_eq_true, decide_eq_true_eq, ih, List.mem_cons]
      constructor
      · rintro (h | ⟨x, hx, hsub⟩)
        · exact ⟨r, .inl rfl, h⟩
        · exact ⟨x, .inr hx, hsub⟩
      · rintro ⟨x, rfl | hx, hsub⟩
        · exact .inl hsub
        · exact .inr ⟨x, hx, hsub⟩

/-- C1: `check_user_permission` succeeds exactly when some single actor
role's compiled closure is a superset of the whole required set, and on
failure raises `PermissionError` carrying the attempted role set and the
required set.  In particular, for an actor holding role 0 (closure {10})
and role 1 (closure {20}), requiring {10, 20} fails even though the union
of the closures covers it, while requiring {10} succeeds. -/
theorem authorize_iff_single_role_superset :
    (∀ (compiled : Nat → Finset Nat) (role_set : List Nat)
        (required : Finset Nat),
      (check_user_permission compiled role_set required = .ok true ↔
        ∃ r ∈ role_set, required ⊆ compiled r) ∧
      (check_user_permission compiled role_set required =
          .error ⟨role_set, required⟩ ↔
        ¬ ∃ r ∈ role_set, required ⊆ compiled r)) ∧
    check_user_permission exampleClosures [0, 1] {10, 20} =
      .error ⟨[0, 1], {10, 20}⟩ ∧
    check_user_permission exampleClosures [0, 1] {10} = .ok true := by
  refine ⟨?_, by decide, by decide⟩
  intro compiled role_set required
  by_cases hb : anyRoleHasAll compiled required role_set = true
  · have hex := (anyRoleHasAll_eq_true_iff compiled required role_set).mp hb
    constructor
    · simp [check_user_permission, hb, hex]
    · simp [check_user_permission, hb, hex]
  · have hex : ¬ ∃ r ∈ role_set, required ⊆ compiled r :=
      fun h => hb ((anyRoleHasAll_eq_true_iff compiled required role_set).mpr h)
    constructor
    · simp [check_user_permission, hb, hex]
    · simp [check_user_permission, hb, hex]

/-- The value a callback returns, as far as `trigger` inspects it: the
source tests `res == False`, so only "is the Python value `False`" matters
(`None`, awaited results and any other value count as "continue"). -/
inductive PyRet
  | retNone
  | retBool (b : Bool)
  | retOther
deriving DecidableEq

/-- The `res == False` test of `CallbackManager.trigger`. -/
def PyRet.eqFalse : PyRet → Bool
  | .retBool false => true
  | _ => false

/-- A notification content payload (`db_sche.NotificationContentOut` is
opaque to the sender logic; only its presence is inspected). -/
structure Content where
  payload : Nat
deriving DecidableEq

/-- The ORM `Notification` row as constructed by `NotificationSender.send`:
sender (nullable), receiver and dumped content. -/
structure NotificationR where
  sender : Option Nat
  receiver : Option Nat
  content : Content
deriving DecidableEq

/-- The attributes of a `NotificationSender` instance: the configured
defaults (`sender`, `receiver`, `session`, `trusted`) and the `curr_*`
temporaries that `send` initializes and callbacks may read or overwrite.
Users and sessions are identified by naturals. -/
structure SenderState where
  sender : Option Nat
  receiver : Option Nat
  session : Option Nat
  trusted : Bool
  curr_sender : Option Nat
  curr_receiver : Option Nat
  curr_content : Option Content
  curr_session : Option Nat
  curr_orm_notification : Option NotificationR
deriving DecidableEq

/-- A registered callback: it receives the sender (`self`), may mutate its
attributes, and returns a value inspected with `== False`. -/
def Cb : Type := SenderState → SenderState × PyRet

/-- Association-list lookup, the embedding of Python dict indexing (`none`
for a raised `KeyError`). -/
def alookup {a : Type} : List (String × a) → String → Option a
  | [], _ => none
  | (k, v) :: rest, key => if key = k then some v else alookup rest key

/-- Association-list write, the embedding of Python dict item assignment:
overwrite in place when the key exists, append otherwise (Python dicts
preserve insertion order). -/
def aset {a : Type} : List (String × a) → String → a → List (String × a)
  | [], key, v => [(key, v)]
  | (k, w) :: rest, key, v =>
      if key = k then (k, v) :: rest else (k, w) :: aset rest key v

/-- Association-list delete, the embedding of Python `del d[key]`. -/
def aremove {a : Type} : List (String × a) → String → List (String × a)
  | [], _ => []
  | (k, w) :: rest, key =>
      if key = k then rest else (k, w) :: aremove rest key

/-- The state of a `CallbackManager` instance: the two-level `callbacks`
dict (signal → key → callback, both levels ordered) and the `disabled`
flag. -/
structure CallbackManager where
  callbacks : List (String × List (String × Cb))
  disabled : Bool

/-- A freshly constructed `CallbackManager` (`__init__`): no signals, not
disabled. -/
def initCallbackManager : CallbackManager := ⟨[], false⟩

/-- Errors raised by `CallbackManager.trigger`: the uncaught `KeyError`
from `self.callbacks[signal]` when the signal has no entry, and
`CallbackInterrupted` carrying the key of the vetoing callback. -/
inductive TriggerErr
  | keyErrorSignal (signal : String)
  | interrupted (callback_key : String)
deriving DecidableEq

/-- Errors raised by `CallbackManager.add` / `CallbackManager.remove`: the
re-raised `KeyError` messages ("... alrady exists" / "... not found"). -/
inductive AddRemoveErr
  | alreadyExists (key signal : String)
  | notFound (key signal : String)
deriving DecidableEq

/-- The `for k, fn in cb_dict.items()` loop of `trigger`: run every
callback in registration order (mutations threading through), remembering
the key of the last callback whose result `== False`.  All callbacks run
even after an abort signal; the interrupt is raised only after the loop. -/
def runCallbacks : List (String × Cb) → SenderState → SenderState × Option String
  | [], st => (st, none)
  | (k, fn) :: rest, st =>
      let r := fn st
      let key0 : Option String := if (r.2).eqFalse then some k else none
      let next := runCallbacks rest r.1
      (next.1, match next.2 with
        | some k2 => some k2
        | none => key0)

/-- Embedding of `CallbackManager.trigger` (src/tools/callback_manager.py
lines 55–94).  The pair carries the sender state (Python mutates `self` in
place, so state survives a raised exception) and the exception raised, if
any: `none` when the trigger returns normally. -/
def trigger (m : CallbackManager) (signal : String) (st : SenderState) :
    SenderState × Option TriggerErr :=
  if m.disabled then (st, none)
  else
    match alookup m.callbacks signal with
    | none => (st, some (.keyErrorSignal signal))
    | some cbs =>
        let r := runCallbacks cbs st
        match r.2 with
        | some k => (r.1, some (.interrupted k))
        | none => (r.1, none)

/-- Embedding of `CallbackManager.add` (lines 96–112): the item assignment
`self.callbacks[signal][key] = fn` raises `KeyError` exactly when `signal`
is not a key of the outer dict (assignment into the inner dict never
raises), and that `KeyError` is re-raised with an "alrady exists"
message.  `add` never creates the signal entry. -/
def CallbackManager.add (m : CallbackManager) (signal : String) (key : String)
    (fn : Cb) : Except AddRemoveErr CallbackManager :=
  match alookup m.callbacks signal with
  | none => .error (.alreadyExists key signal)
  | some d => .ok { m with callbacks := aset m.callbacks signal (aset d key fn) }

/-- Embedding of `CallbackManager.remove` (lines 114–121). -/
def CallbackManager.remove (m : CallbackManager) (signal : String)
    (key : String) : Except AddRemoveErr CallbackManager :=
  match alookup m.callbacks signal with
  | none => .error (.notFound key signal)
  | some d =>
      match alookup d key with
      | none => .error (.notFound key signal)
      | some _ =>
          .ok { m with callbacks := aset m.callbacks signal (aremove d key) }

/-- Embedding of `CallbackManager.clear`. -/
def CallbackManager.clear (m : CallbackManager) : CallbackManager :=
  { m with callbacks := [] }

/-- One invocation of the public mutating interface of `CallbackManager`;
a call that raises leaves the state unchanged. -/
inductive CMOp
  | addOp (signal key : String) (fn : Cb)
  | removeOp (signal key : String)
  | clearOp

/-- Apply one interface call, keeping the state on a raised error. -/
def applyCMOp (m : CallbackManager) : CMOp → CallbackManager
  | .addOp s k fn =>
      match m.add s k fn with
      | .ok m2 => m2
      | .error _ => m
  | .removeOp s k =>
      match m.remove s k with
      | .ok m2 => m2
      | .error _ => m
  | .clearOp => m.clear

/-- Apply a sequence of interface calls to a manager. -/
def applyCMOps (m : CallbackManager) : List CMOp → CallbackManager
  | [] => m
  | op :: rest => applyCMOps (applyCMOp m op) rest

/-- Errors escaping `NotificationSender.send`
(src/provider/notification/basic.py lines 168–226): the validity errors of
`check_validity`, an uncaught `KeyError` escaping from a `trigger` call
(only `CallbackInterrupted` is caught), and the `assert` before the
database add.  A `keyErrorSignal` raised at the `after` stage escapes
although the record has already been committed. -/
inductive SendErr
  | invalidContent
  | invalidReceiver
  | invalidSession
  | senderNotTrusted
  | keyErrorSignal (signal : String)
  | assertionFailed
deriving DecidableEq

/-- What a completed (non-raising) `send` call did: the final sender
state, the arguments of the `session.add` calls performed, the number of
`try_commit` calls, and the returned value (`self.curr_orm_notification`
read after the `after` stage, `None` on an interrupted early return). -/
structure SendOutcome where
  final : SenderState
  sessionAdds : List (Option NotificationR)
  commits : Nat
  result : Option NotificationR
deriving DecidableEq

/-- Embedding of `NotificationSender.init_curr` as invoked by `send`
(`init_curr(content=content, receiver=receiver, session=ss)`): parameters
that are `None` fall back to the instance defaults, the content is stored
as passed, and the temporary ORM reference is reset. -/
def init_curr (st : SenderState) (content : Option Content)
    (receiver : Option Nat) (ss : Option Nat) : SenderState :=
  { st with
    curr_sender := st.sender
    curr_receiver := match receiver with
      | some r => some r
      | none => st.receiver
    curr_session := match ss with
      | some s => some s
      | none => st.session
    curr_content := content
    curr_orm_notification := none }

/-- The tail of `send` from the `session.add` / `try_commit` block on
(lines 211–226): persist the current ORM reference, commit, then run the
`after` stage, catching `CallbackInterrupted` (only logged) but letting a
`KeyError` propagate; the returned value re-reads
`self.curr_orm_notification`, which `after` callbacks may have changed. -/
def sendPersist (m : CallbackManager) (st4 : SenderState) :
    Except SendErr SendOutcome :=
  match st4.curr_session with
  | none => .error .assertionFailed
  | some _ =>
      let t3 := trigger m "after" st4
      match t3.2 with
      | some (.keyErrorSignal s) => .error (.keyErrorSignal s)
      | _ =>
          .ok ⟨t3.1, [st4.curr_orm_notification], 1,
            t3.1.curr_orm_notification⟩

/-- The `upon` checkpoint of `send` (lines 202–209): a
`CallbackInterrupted` is caught and `send` returns `None` without any
database interaction; a `KeyError` propagates. -/
def sendFromUpon (m : CallbackManager) (t2 : SenderState × Option TriggerErr) :
    Except SendErr SendOutcome :=
  match t2.2 with
  | some (.keyErrorSignal s) => .error (.keyErrorSignal s)
  | some (.interrupted _) => .ok ⟨t2.1, [], 0, none⟩
  | none => sendPersist m t2.1

/-- `check_validity` (lines 124–139) followed by the ORM construction and
the `upon` trigger (lines 191–209), checking the `curr_*` temporaries in
source order: content, receiver, session, then the trusted-sender rule. -/
def sendValidity (m : CallbackManager) (st2 : SenderState) :
    Except SendErr SendOutcome :=
  match st2.curr_content with
  | none => .error .invalidContent
  | some c =>
      match st2.curr_receiver with
      | none => .error .invalidReceiver
      | some rv =>
          match st2.curr_session with
          | none => .error .invalidSession
          | some _ =>
              if st2.curr_sender.isNone && !st2.trusted then
                .error .senderNotTrusted
              else
                let orm := NotificationR.mk st2.curr_sender (some rv) c
                let st3 := { st2 with curr_orm_notification := some orm }
                sendFromUpon m (trigger m "upon" st3)

/-- The `before` checkpoint of `send` (lines 182–189): a
`CallbackInterrupted` is caught and `send` returns `None`; a `KeyError`
propagates; otherwise validity checking and the rest of the pipeline
run. -/
def sendFromBefore (m : CallbackManager)
    (t1 : SenderState × Option TriggerErr) : Except SendErr SendOutcome :=
  match t1.2 with
  | some (.keyErrorSignal s) => .error (.keyErrorSignal s)
  | some (.interrupted _) => .ok ⟨t1.1, [], 0, none⟩
  | none => sendValidity m t1.1

/-- Embedding of `NotificationSender.send` (lines 168–226), decomposed
along its checkpoints. -/
def send (m : CallbackManager) (st0 : SenderState) (content : Option Content)
    (receiver : Option Nat) (ss : Option Nat) : Except SendErr SendOutcome :=
  sendFromBefore m (trigger m "before" (init_curr st0 content receiver ss))

theorem alookup_aset_same {a : Type} (d : List (String × a)) (key : String)
    (v : a) : alookup (aset d key v) key = some v := by
  induction d with
  | nil => simp [aset, alookup]
  | cons kv rest ih =>
      by_cases h : key = kv.1
      · simp [aset, alookup, h]
      · simp [aset, alookup, h, ih]

theorem applyCMOps_keeps_empty (ops : List CMOp) :
    ∀ m : CallbackManager, m.callbacks = [] →
      (applyCMOps m ops).callbacks = [] := by
  induction ops with
  | nil => intro m h; exact h
  | cons op rest ih =>
      intro m h
      show (applyCMOps (applyCMOp m op) rest).callbacks = []
      apply ih
      cases op with
      | addOp s k fn => simp [applyCMOp, CallbackManager.add, h, alookup]
      | removeOp s k => simp [applyCMOp, CallbackManager.remove, h, alookup]
      | clearOp => simp [applyCMOp, CallbackManager.clear]

/-- C9: `CallbackManager.add` raises its "alrady exists" `KeyError`
exactly when the signal has no entry in the callbacks dict — which, since
`add` never creates a signal entry and `remove`/`clear` never add one, is
the case whenever no callback has ever been registered under the signal
through the manager's interface (in particular the first `add` for any
signal always fails); when the signal entry exists and already holds the
key, `add` returns normally and silently replaces the stored callback. -/
theorem add_raises_on_fresh_signal_replaces_existing :
    (∀ (m : CallbackManager) (signal key : String) (fn : Cb),
      alookup m.callbacks signal = none →
      m.add signal key fn = .error (.alreadyExists key signal)) ∧
    (∀ (m : CallbackManager) (signal key : String) (fn fn0 : Cb)
        (d : List (String × Cb)),
      alookup m.callbacks signal = some d → alookup d key = some fn0 →
      m.add signal key fn =
        .ok { m with callbacks := aset m.callbacks signal (aset d key fn) } ∧
      alookup (aset d key fn) key = some fn) ∧
    (∀ ops : List CMOp, (applyCMOps initCallbackManager ops).callbacks = []) := by
  refine ⟨?_, ?_, fun ops => applyCMOps_keeps_empty ops initCallbackManager rfl⟩
  · intro m signal key fn h
    simp [CallbackManager.add, h]
  · intro m signal key fn fn0 d h _
    refine ⟨?_, alookup_aset_same d key fn⟩
    simp [CallbackManager.add, h]

/-- A callback signalling abort (returns Python `False`). -/
def cbAbort : Cb := fun st => (st, .retBool false)

/-- A callback returning `None` (continue). -/
def cbPass : Cb := fun st => (st, .retNone)

/-- A manager holding one previously registered callback under signal
"sig" (such a state is constructible only by writing the dict directly, as
`add` cannot create the first entry). -/
def mOneSig : CallbackManager :=
  CallbackManager.mk [("sig", [("k", cbPass)])] false

/-- C9 witness: the first `add` on a fresh manager raises the
"alrady exists" `KeyError`, and an `add` for an existing (signal, key)
pair succeeds and replaces the callback. -/
theorem add_raises_on_fresh_signal_witness :
    initCallbackManager.add "before" "k" cbPass =
      .error (.alreadyExists "k" "before") ∧
    mOneSig.add "sig" "k" cbAbort =
      .ok { mOneSig with callbacks := aset mOneSig.callbacks "sig" (aset [("k", cbPass)] "k" cbAbort) } ∧
    alookup (aset [("k", cbPass)] "k" cbAbort) "k" = some cbAbort := by
  refine ⟨add_raises_on_fresh_signal_replaces_existing.1
      initCallbackManager "before" "k" cbPass rfl, ?_, ?_⟩
  · exact (add_raises_on_fresh_signal_replaces_existing.2.1
      mOneSig "sig" "k" cbAbort cbPass [("k", cbPass)] rfl rfl).1
  · exact (add_raises_on_fresh_signal_replaces_existing.2.1
      mOneSig "sig" "k" cbAbort cbPass [("k", cbPass)] rfl rfl).2

/-- C6: abort semantics of the callback pipeline around
`NotificationSender.send`.  (1) When the manager is enabled, the signal is
registered and some callback in the loop signals abort (returns `False`),
`trigger` raises `CallbackInterrupted` carrying the vetoing callback's
key.  (2) An abort at the `before` checkpoint makes `send` return `None`
with no `session.add` and no commit.  (3) The same holds for an abort at
the `upon` checkpoint (the ORM object has been constructed but is never
added to the session).  (4)/(5) An abort at the `after` checkpoint is
caught: `sendPersist` returns exactly the same outcome — one record added
and committed, the current ORM reference returned — as when no `after`
callback aborts. -/
theorem pipeline_abort_semantics :
    (∀ (m : CallbackManager) (signal : String) (st : SenderState)
        (cbs : List (String × Cb)) (k : String),
      m.disabled = false → alookup m.callbacks signal = some cbs →
      (runCallbacks cbs st).2 = some k →
      (trigger m signal st).2 = some (.interrupted k)) ∧
    (∀ (m : CallbackManager) (st0 : SenderState) (content : Option Content)
        (receiver ss : Option Nat) (k : String),
      (trigger m "before" (init_curr st0 content receiver ss)).2 =
        some (TriggerErr.interrupted k) →
      send m st0 content receiver ss =
        .ok ⟨(trigger m "before" (init_curr st0 content receiver ss)).1,
          [], 0, none⟩) ∧
    (∀ (m : CallbackManager) (st0 : SenderState) (content : Option Content)
        (receiver ss : Option Nat) (st2 : SenderState) (c : Content)
        (rv sess : Nat) (orm : NotificationR) (st3 : SenderState)
        (k : String),
      (trigger m "before" (init_curr st0 content receiver ss)).2 = none →
      st2 = (trigger m "before" (init_curr st0 content receiver ss)).1 →
      st2.curr_content = some c →
      st2.curr_receiver = some rv →
      st2.curr_session = some sess →
      (st2.curr_sender.isNone && !st2.trusted) = false →
      orm = NotificationR.mk st2.curr_sender (some rv) c →
      st3 = { st2 with curr_orm_notification := some orm } →
      (trigger m "upon" st3).2 = some (TriggerErr.interrupted k) →
      send m st0 content receiver ss =
        .ok ⟨(trigger m "upon" st3).1, [], 0, none⟩) ∧
    (∀ (m : CallbackManager) (st4 : SenderState) (sess : Nat) (k : String),
      st4.curr_session = some sess →
      (trigger m "after" st4).2 = some (TriggerErr.interrupted k) →
      sendPersist m st4 =
        .ok ⟨(trigger m "after" st4).1, [st4.curr_orm_notification], 1,
          (trigger m "after" st4).1.curr_orm_notification⟩) ∧
    (∀ (m : CallbackManager) (st4 : SenderState) (sess : Nat),
      st4.curr_session = some sess →
      (trigger m "after" st4).2 = none →
      sendPersist m st4 =
        .ok ⟨(trigger m "after" st4).1, [st4.curr_orm_notification], 1,
          (trigger m "after" st4).1.curr_orm_notification⟩) := by
  refine ⟨?_, ?_, ?_, ?_, ?_⟩
  · intro m signal st cbs k hd hl hr
    simp [trigger, hd, hl, hr]
  · intro m st0 content receiver ss k habort
    simp [send, sendFromBefore, habort]
  · intro m st0 content receiver ss st2 c rv sess orm st3 k hbefore hst2 hc
      hrv hsess hsender horm hst3 hupon
    subst hst2 horm hst3
    simp only [send, sendFromBefore, hbefore]
    simp only [sendValidity, hc, hrv, hsess, hsender, Bool.false_eq_true,
      if_false]
    rw [hc, hrv, hsess] at hupon
    simp [sendFromUpon, hupon]
  · intro m st4 sess k hsess habort
    simp [sendPersist, hsess, habort]
  · intro m st4 sess hsess hnone
    simp [sendPersist, hsess, hnone]

/-- A manager whose only registration is an aborting callback at the
`before` checkpoint. -/
def mAbortBefore : CallbackManager :=
  CallbackManager.mk [("before", [("veto", cbAbort)])] false

/-- A manager whose only registration is an aborting callback at the
`after` checkpoint. -/
def mAbortAfter : CallbackManager :=
  CallbackManager.mk [("after", [("veto2", cbAbort)])] false

/-- A sender configured with defaults: sender user 1, receiver user 2,
session 3, trusted. -/
def st0W : SenderState :=
  SenderState.mk (some 1) (some 2) (some 3) true none none none none none

/-- A concrete content payload. -/
def contentW : Content := Content.mk 42

/-- The sender state as it stands just before the persistence block in a
successful run: temporaries initialized and the ORM object constructed. -/
def st4W : SenderState :=
  SenderState.mk (some 1) (some 2) (some 3) true (some 1) (some 2)
    (some contentW) (some 3)
    (some (NotificationR.mk (some 1) (some 2) contentW))

/-- C6 witness: the before-abort and after-abort parts applied to concrete
managers, sender states and callbacks. -/
theorem pipeline_abort_semantics_witness :
    send mAbortBefore st0W (some contentW) none none =
      .ok ⟨(trigger mAbortBefore "before"
        (init_curr st0W (some contentW) none none)).1, [], 0, none⟩ ∧
    sendPersist mAbortAfter st4W =
      .ok ⟨(trigger mAbortAfter "after" st4W).1,
        [st4W.curr_orm_notification], 1,
        (trigger mAbortAfter "after" st4W).1.curr_orm_notification⟩ := by
  constructor
  · exact pipeline_abort_semantics.2.1 mAbortBefore st0W (some contentW)
      none none "veto" rfl
  · exact pipeline_abort_semantics.2.2.2.1 mAbortAfter st4W 3 "veto2" rfl rfl

/-- C10 counterexample: with an aborting callback registered only at
`before`, `send` completes (returning `None`) although the `upon` and
`after` signals have no callbacks registered and the manager is enabled —
so completion of `send` does not require all three signals to be
populated. -/
theorem send_completes_without_upon_after_registered :
    send mAbortBefore st0W (some contentW) none none =
      .ok ⟨init_curr st0W (some contentW) none none, [], 0, none⟩ ∧
    alookup mAbortBefore.callbacks "upon" = none ∧
    alookup mAbortBefore.callbacks "after" = none ∧
    mAbortBefore.disabled = false :=
  ⟨rfl, rfl, rfl, rfl⟩

theorem trigger_snd_cases (m : CallbackManager) (signal : String)
    (st : SenderState) :
    (trigger m signal st).2 = some (.keyErrorSignal signal) ∨
      m.disabled = true ∨ (alookup m.callbacks signal).isSome = true := by
  cases hd : m.disabled
  · cases hl : alookup m.callbacks signal
    · left; simp [trigger, hd, hl]
    · right; right; simp [hl]
  · right; left; rfl

theorem sendFromBefore_ok_commits_inv (m : CallbackManager)
    (t1 : SenderState × Option TriggerErr) (out : SendOutcome)
    (h : sendFromBefore m t1 = .ok out) (hcm : out.commits = 1) :
    t1.2 = none ∧ sendValidity m t1.1 = .ok out := by
  rcases ht : t1.2 with _ | e
  · simp only [sendFromBefore, ht] at h
    exact ⟨rfl, h⟩
  · cases e with
    | keyErrorSignal s =>
        simp only [sendFromBefore, ht] at h
        exact absurd h (by simp)
    | interrupted k =>
        simp only [sendFromBefore, ht] at h
        injection h with h2
        subst h2
        exact absurd hcm (by simp)

theorem sendValidity_ok_inv (m : CallbackManager) (st2 : SenderState)
    (out : SendOutcome) (h : sendValidity m st2 = .ok out) :
    ∃ st3 : SenderState,
      sendFromUpon m (trigger m "upon" st3) = .ok out := by
  rcases hc : st2.curr_content with _ | c
  · simp only [sendValidity, hc] at h
    exact absurd h (by simp)
  · rcases hrv : st2.curr_receiver with _ | rv
    · simp only [sendValidity, hc, hrv] at h
      exact absurd h (by simp)
    · rcases hse : st2.curr_session with _ | sess
      · simp only [sendValidity, hc, hrv, hse] at h
        exact absurd h (by simp)
      · by_cases hsd : (st2.curr_sender.isNone && !st2.trusted) = true
        · simp only [sendValidity, hc, hrv, hse, hsd, if_true] at h
          exact absurd h (by simp)
        · have hsd2 : (st2.curr_sender.isNone && !st2.trusted) = false := by
            cases hx : (st2.curr_sender.isNone && !st2.trusted)
            · rfl
            · exact absurd hx hsd
          simp only [sendValidity, hc, hrv, hse, hsd2, Bool.false_eq_true,
            if_false] at h
          exact ⟨_, h⟩

theorem sendFromUpon_ok_commits_inv (m : CallbackManager)
    (t2 : SenderState × Option TriggerErr) (out : SendOutcome)
    (h : sendFromUpon m t2 = .ok out) (hcm : out.commits = 1) :
    t2.2 = none ∧ sendPersist m t2.1 = .ok out := by
  rcases ht : t2.2 with _ | e
  · simp only [sendFromUpon, ht] at h
    exact ⟨rfl, h⟩
  · cases e with
    | keyErrorSignal s =>
        simp only [sendFromUpon, ht] at h
        exact absurd h (by simp)
    | interrupted k =>
        simp only [sendFromUpon, ht] at h
        injection h with h2
        subst h2
        exact absurd hcm (by simp)

theorem sendPersist_ok_no_keyerror (m : CallbackManager) (st4 : SenderState)
    (out : SendOutcome) (h : sendPersist m st4 = .ok out) (s : String) :
    (trigger m "after" st4).2 ≠ some (.keyErrorSignal s) := by
  intro hk
  rcases hse : st4.curr_session with _ | sess
  · simp only [sendPersist, hse] at h
    exact absurd h (by simp)
  · simp only [sendPersist, hse, hk] at h
    exact absurd h (by simp)

/-- C10 as amended: with an enabled manager, `trigger` on a signal that
has no entry in the callbacks dict raises `KeyError` rather than being a
no-op; consequently a `send` call that reaches persistence (performs its
commit) can only complete when the manager is disabled or each of the
`before`, `upon` and `after` signals has an entry in the callbacks dict.
(A `send` aborted at the `before` checkpoint completes with `None` without
ever consulting `upon` or `after`, as
`send_completes_without_upon_after_registered` shows, so the claim's
necessity of all three registrations holds only for completions that
persist a record.) -/
theorem trigger_keyerror_and_send_completion :
    (∀ (m : CallbackManager) (signal : String) (st : SenderState),
      m.disabled = false → alookup m.callbacks signal = none →
      (trigger m signal st).2 = some (.keyErrorSignal signal)) ∧
    (∀ (m : CallbackManager) (st0 : SenderState) (content : Option Content)
        (receiver ss : Option Nat) (out : SendOutcome),
      send m st0 content receiver ss = .ok out → out.commits = 1 →
      m.disabled = true ∨
        ((alookup m.callbacks "before").isSome = true ∧
          (alookup m.callbacks "upon").isSome = true ∧
          (alookup m.callbacks "after").isSome = true)) := by
  constructor
  · intro m signal st hd hl
    simp [trigger, hd, hl]
  · intro m st0 content receiver ss out h hcm
    cases hd : m.disabled
    · right
      obtain ⟨ht1, h2⟩ := sendFromBefore_ok_commits_inv m _ out h hcm
      have hbefore : (alookup m.callbacks "before").isSome = true := by
        rcases trigger_snd_cases m "before"
            (init_curr st0 content receiver ss) with hk | hd2 | hs
        · rw [ht1] at hk; exact absurd hk (by simp)
        · rw [hd] at hd2; exact absurd hd2 (by simp)
        · exact hs
      obtain ⟨st3, h3⟩ := sendValidity_ok_inv m _ out h2
      obtain ⟨ht2, h4⟩ := sendFromUpon_ok_commits_inv m _ out h3 hcm
      have hupon : (alookup m.callbacks "upon").isSome = true := by
        rcases trigger_snd_cases m "upon" st3 with hk | hd2 | hs
        · rw [ht2] at hk; exact absurd hk (by simp)
        · rw [hd] at hd2; exact absurd hd2 (by simp)
        · exact hs
      have hafter : (alookup m.callbacks "after").isSome = true := by
        rcases trigger_snd_cases m "after"
            (trigger m "upon" st3).1 with hk | hd2 | hs
        · exact absurd hk (sendPersist_ok_no_keyerror m _ out h4 "after")
        · rw [hd] at hd2; exact absurd hd2 (by simp)
        · exact hs
      exact ⟨hbefore, hupon, hafter⟩
    · exact .inl rfl

/-- A manager with one non-aborting callback registered at each of the
three checkpoints. -/
def mFull : CallbackManager :=
  CallbackManager.mk
    [("before", [("p1", cbPass)]), ("upon", [("p2", cbPass)]),
      ("after", [("p3", cbPass)])] false

/-- The outcome of a fully successful `send` under `mFull` from `st0W`:
one record added and committed, the ORM object returned. -/
def outFull : SendOutcome :=
  SendOutcome.mk st4W [some (NotificationR.mk (some 1) (some 2) contentW)] 1
    (some (NotificationR.mk (some 1) (some 2) contentW))

/-- C10 amended witness: the completion condition applied to a concrete
fully-registered manager and a send call that persists a record. -/
theorem trigger_keyerror_and_send_completion_witness :
    mFull.disabled = true ∨
      ((alookup mFull.callbacks "before").isSome = true ∧
        (alookup mFull.callbacks "upon").isSome = true ∧
        (alookup mFull.callbacks "after").isSome = true) :=
  trigger_keyerror_and_send_completion.2 mFull st0W (some contentW)
    none none outFull rfl rfl

/-- `ItemState` (src/schemes/sql.py lines 216–219). -/
inductive ItemState
  | hide
  | sold
  | valid
deriving DecidableEq

/-- `TradeState` (src/schemes/sql.py lines 269–273). -/
inductive TradeState
  | pending
  | processing
  | success
  | cancelled
deriving DecidableEq

/-- `TradeCancelReason` (src/schemes/sql.py lines 276–281). -/
inductive TradeCancelReason
  | seller_rejected
  | seller_accept_timeout
  | cancelled_by_buyer
  | cancelled_by_seller
  | seller_confirm_timeout
deriving DecidableEq

/-- The columns of `TradeRecord` (src/schemes/sql.py lines 284–303) that
the workflow reads or writes; ORM defaults: state `pending`, the nullable
timestamps and `cancel_reason` null. -/
structure TradeRecord where
  trade_id : Nat
  buyer_id : Nat
  item_id : Nat
  created_time : Nat
  accepted_time : Option Nat
  confirmed_time : Option Nat
  completed_time : Option Nat
  state : TradeState
  cancel_reason : Option TradeCancelReason
deriving DecidableEq

/-- The columns of `Item` the trade guards read: id, owning seller id
(`user_id`, the `seller` relationship), lifecycle state. -/
structure Item where
  item_id : Nat
  user_id : Nat
  state : ItemState
deriving DecidableEq

/-- The database view the start-transaction guards query: the live trade
rows, the per-user count of (non-deleted) contact infos
(`get_user_contact_info_count`), and the configured
`MAX_TRANSACTION_PER_BUYER` ceiling (from `config.system`, a configuration
module outside the workflow source). -/
structure DB where
  trades : List TradeRecord
  contact_info_count : Nat → Nat
  max_transaction_per_buyer : Nat

/-- The distinctly named guard errors of src/provider/trade/basic.py (and,
for `confirm_transaction`, the names documented at its call site in
src/endpoints/trade.py), plus the `RuntimeError` of
`determine_cancel_reason`. -/
inductive TradeErr
  | invalid_item
  | processing_transaction_exists
  | identical_seller_buyer
  | duplicated_transaction
  | no_valid_contact_info
  | processing_transaction_limit_exceeded
  | transaction_not_pending
  | not_seller
  | not_seller_or_buyer
  | trade_not_processing
  | could_not_cancel_confirmed_transaction
  | runtime_cannot_determine_reason
deriving DecidableEq

/-- Embedding of `check_item_validity_to_start_transaction` (lines 21–45):
the item must be in `valid` state and have no processing trade
(`item.processing_trade` is the trade row referencing the item whose state
is `processing`). -/
def check_item_validity_to_start_transaction (db : DB) (item : Item) :
    Except TradeErr Unit :=
  if item.state ≠ ItemState.valid then .error .invalid_item
  else if db.trades.any (fun t =>
      decide (t.item_id = item.item_id ∧ t.state = TradeState.processing))
    then .error .processing_transaction_exists
  else .ok ()

/-- Embedding of `check_buyer_is_not_owner_of_item` (lines 48–66): the
item's seller id is `item.user_id`. -/
def check_buyer_is_not_owner_of_item (buyer_id : Nat) (item : Item) :
    Except TradeErr Unit :=
  if item.user_id = buyer_id then .error .identical_seller_buyer else .ok ()

/-- Embedding of `check_no_existing_processing_transaction` (lines
69–122): count the trades of this (buyer, item) pair in `pending` or
`processing` state. -/
def check_no_existing_processing_transaction (db : DB) (buyer_id : Nat)
    (item : Item) : Except TradeErr Unit :=
  if 0 < (db.trades.filter (fun t =>
      decide (t.item_id = item.item_id ∧
        (t.state = TradeState.processing ∨ t.state = TradeState.pending) ∧
        t.buyer_id = buyer_id))).length
    then .error .duplicated_transaction
  else .ok ()

/-- Embedding of `check_user_validity_to_start_transaction` (lines
153–191): at least one contact info, and the count of the buyer's
processing trades strictly below the configured ceiling. -/
def check_user_validity_to_start_transaction (db : DB) (user_id : Nat) :
    Except TradeErr Unit :=
  if db.contact_info_count user_id = 0 then .error .no_valid_contact_info
  else if db.max_transaction_per_buyer ≤ (db.trades.filter (fun t =>
      decide (t.buyer_id = user_id ∧ t.state = TradeState.processing))).length
    then .error .processing_transaction_limit_exceeded
  else .ok ()

/-- Embedding of `check_validity_to_start_transaction` (lines 125–150):
the four guards run in source order — item validity, buyer validity,
non-self-trade, duplicate negotiation — and the first failure's error
propagates. -/
def check_validity_to_start_transaction (db : DB) (user_id : Nat)
    (item : Item) : Except TradeErr Unit := do
  check_item_validity_to_start_transaction db item
  check_user_validity_to_start_transaction db user_id
  check_buyer_is_not_owner_of_item user_id item
  check_no_existing_processing_transaction db user_id item

/-- Embedding of `start_transaction` (lines 254–294): run the combined
guard (unless `skip_check`), then create a new `TradeRecord` with the ORM
defaults (`pending`, null timestamps, null cancel reason) and add it. -/
def start_transaction (db : DB) (user_id : Nat) (item : Item)
    (now new_id : Nat) (skip_check : Bool) :
    Except TradeErr (DB × TradeRecord) :=
  match (if skip_check then Except.ok ()
    else check_validity_to_start_transaction db user_id item) with
  | .error e => .error e
  | .ok _ =>
      let t := TradeRecord.mk new_id user_id item.item_id now none none none
        TradeState.pending none
      .ok ({ db with trades := db.trades ++ [t] }, t)

/-- Embedding of `accpet_transaction` (lines 234–251, source spelling
kept): only a `pending` trade can be accepted; on success the state
becomes `processing` and the accepted time is stamped. -/
def accpet_transaction (t : TradeRecord) (now : Nat) :
    Except TradeErr TradeRecord :=
  if t.state ≠ TradeState.pending then .error .transaction_not_pending
  else .ok { t with state := TradeState.processing, accepted_time := some now }

/-- Embedding of `determine_cancel_reason` (lines 333–398).  The caller's
identity enters only through "is the user the item's seller" and "is the
user the trade's buyer", so the seller id is passed alongside the user id.
The `RuntimeError` fall-through is `runtime_cannot_determine_reason`. -/
def determine_cancel_reason (user_id seller_id : Nat) (t : TradeRecord)
    (raise_if_uncancellable : Bool) : Except TradeErr TradeCancelReason :=
  if raise_if_uncancellable && t.confirmed_time.isSome then
    .error .could_not_cancel_confirmed_transaction
  else if t.state = TradeState.pending ∧ user_id = seller_id then
    .ok .seller_rejected
  else if t.state = TradeState.pending ∧ t.buyer_id = user_id then
    .ok .cancelled_by_buyer
  else if t.state = TradeState.processing ∧ user_id = seller_id then
    .ok .cancelled_by_seller
  else if t.state = TradeState.processing ∧ t.buyer_id = user_id then
    .ok .cancelled_by_buyer
  else .error .runtime_cannot_determine_reason

/-- Embedding of `cancel_transaction` (lines 401–438): when no explicit
reason is given, auto-determination is attempted with
`raise_if_uncancellable=False` and its `RuntimeError` is swallowed; the
state is then set to `cancelled` unconditionally (no state guard), and the
cancel reason is written only when one exists (otherwise the previous
value is kept). -/
def cancel_transaction (user_id seller_id : Nat) (t : TradeRecord)
    (cancel_reason : Option TradeCancelReason) : TradeRecord :=
  let reason := match cancel_reason with
    | some r => some r
    | none =>
        match determine_cancel_reason user_id seller_id t false with
        | .ok r => some r
        | .error _ => none
  let t2 := { t with state := TradeState.cancelled }
  match reason with
  | some r => { t2 with cancel_reason := some r }
  | none => t2

/-- Modelled from the spec: `confirm_transaction` is exported from
`provider.trade.basic` (src/provider/trade/__init__.py) and called from
src/endpoints/trade.py, but its definition is missing from the source
snapshot.  Spec §4.4: only the buyer or the seller may confirm, and only
while state = `processing` (error names `not_seller_or_buyer` and
`trade_not_processing` from the endpoint docstring); confirmation records
the timestamp and transitions the state to `success` with
`completed_time` = now.  The spec leaves the confirmation arity open;
single-sided completion is modelled, which does not affect the fact that
`success` is entered only from `processing`. -/
def confirm_transaction (user_id seller_id : Nat) (t : TradeRecord)
    (now : Nat) : Except TradeErr TradeRecord :=
  if user_id ≠ seller_id ∧ t.buyer_id ≠ user_id then
    .error .not_seller_or_buyer
  else if t.state ≠ TradeState.processing then .error .trade_not_processing
  else .ok { t with confirmed_time := some now, completed_time := some now, state := TradeState.success }

/-- One workflow mutation applied to a single trade row. -/
inductive TradeOp
  | accept (now : Nat)
  | cancel (user_id seller_id : Nat) (reason : Option TradeCancelReason)
  | confirm (user_id seller_id : Nat) (now : Nat)

/-- Apply one workflow mutation to a trade row. -/
def stepTrade (t : TradeRecord) : TradeOp → Except TradeErr TradeRecord
  | .accept now => accpet_transaction t now
  | .cancel u s reason => .ok (cancel_transaction u s t reason)
  | .confirm u s now => confirm_transaction u s t now

theorem cancel_transaction_state (u s : Nat) (t : TradeRecord)
    (r : Option TradeCancelReason) :
    (cancel_transaction u s t r).state = TradeState.cancelled := by
  simp only [cancel_transaction]
  cases r
  · cases hd : determine_cancel_reason u s t false <;> simp [hd]
  · simp

theorem cancel_transaction_reason_some (u s : Nat) (t : TradeRecord)
    (r : TradeCancelReason) :
    (cancel_transaction u s t (some r)).cancel_reason = some r := by
  simp [cancel_transaction]

theorem accpet_transaction_ok_inv {t : TradeRecord} {now : Nat}
    {t2 : TradeRecord} (h : accpet_transaction t now = .ok t2) :
    t.state = TradeState.pending ∧
    t2 = { t with state := TradeState.processing, accepted_time := some now } := by
  unfold accpet_transaction at h
  split at h
  · exact absurd h (by simp)
  · next hcond =>
      refine ⟨by simpa using hcond, ?_⟩
      injection h with h2
      exact h2.symm

theorem confirm_transaction_ok_inv {u s : Nat} {t : TradeRecord} {now : Nat}
    {t2 : TradeRecord} (h : confirm_transaction u s t now = .ok t2) :
    t.state = TradeState.processing ∧
    t2 = { t with confirmed_time := some now, completed_time := some now, state := TradeState.success } := by
  unfold confirm_transaction at h
  split at h
  · exact absurd h (by simp)
  · split at h
    · exact absurd h (by simp)
    · next hcond =>
        refine ⟨by simpa using hcond, ?_⟩
        injection h with h2
        exact h2.symm

theorem start_transaction_ok_inv {db : DB} {u : Nat} {item : Item}
    {now nid : Nat} {res : DB × TradeRecord}
    (h : start_transaction db u item now nid false = .ok res) :
    res.2 = TradeRecord.mk nid u item.item_id now none none none
      TradeState.pending none := by
  unfold start_transaction at h
  simp only [Bool.false_eq_true, if_false] at h
  split at h
  · exact absurd h (by simp)
  · injection h with h2
    rw [← h2]

/-- The concrete database and item of the C3 counterexample: an empty
trade table, one contact info for everyone, ceiling 5; the item is owned
by user 1 and is in `hide` state. -/
def dbC3 : DB := DB.mk [] (fun _ => 1) 5

/-- An item owned by user 1 in `hide` (not `valid`) state. -/
def itemC3 : Item := Item.mk 100 1 ItemState.hide

/-- C3 counterexample: when the buyer is the seller but the item is not in
valid state, `start_transaction` fails with `invalid_item`, not
`identical_seller_buyer` — the item-eligibility guard runs first. -/
theorem self_trade_with_invalid_item_error :
    start_transaction dbC3 1 itemC3 0 200 false =
      .error TradeErr.invalid_item ∧
    itemC3.user_id = 1 ∧
    TradeErr.invalid_item ≠ TradeErr.identical_seller_buyer := by
  refine ⟨rfl, rfl, by decide⟩

/-- C3 as amended: `start_transaction` with buyer = seller always fails
(no record is created), but the error is `identical_seller_buyer` only
when the item-eligibility and buyer-eligibility guards, which run first,
both pass; otherwise the earlier guard's error is raised instead. -/
theorem self_trade_always_fails (db : DB) (user_id : Nat) (item : Item)
    (now new_id : Nat) (h : item.user_id = user_id) :
    (∃ e, start_transaction db user_id item now new_id false = .error e) ∧
    (check_item_validity_to_start_transaction db item = .ok () →
      check_user_validity_to_start_transaction db user_id = .ok () →
      start_transaction db user_id item now new_id false =
        .error TradeErr.identical_seller_buyer) := by
  have howner : check_buyer_is_not_owner_of_item user_id item =
      .error .identical_seller_buyer := by
    simp [check_buyer_is_not_owner_of_item, h]
  constructor
  · cases hI : check_item_validity_to_start_transaction db item with
    | error e =>
        exact ⟨e, by simp [start_transaction,
          check_validity_to_start_transaction, hI, Bind.bind, Except.bind]⟩
    | ok u =>
        cases hU : check_user_validity_to_start_transaction db user_id with
        | error e =>
            exact ⟨e, by simp [start_transaction,
              check_validity_to_start_transaction, hI, hU, Bind.bind,
              Except.bind]⟩
        | ok u2 =>
            exact ⟨.identical_seller_buyer, by simp [start_transaction,
              check_validity_to_start_transaction, hI, hU, howner, Bind.bind,
              Except.bind]⟩
  · intro hI hU
    simp [start_transaction, check_validity_to_start_transaction, hI, hU,
      howner, Bind.bind, Except.bind]

/-- A database passing all buyer-side guards: no trades, one contact info
for everyone, ceiling 5. -/
def dbC3v : DB := DB.mk [] (fun _ => 1) 5

/-- A valid item owned by user 1. -/
def itemC3v : Item := Item.mk 101 1 ItemState.valid

/-- C3 amended witness: with every other guard passing, the self-trade
start fails with `identical_seller_buyer`. -/
theorem self_trade_always_fails_witness :
    start_transaction dbC3v 1 itemC3v 0 201 false =
      .error TradeErr.identical_seller_buyer :=
  (self_trade_always_fails dbC3v 1 itemC3v 0 201 rfl).2 rfl rfl

/-- A pending trade by buyer 2 on item 100 (seller 1). -/
def tP : TradeRecord :=
  TradeRecord.mk 300 2 100 0 none none none TradeState.pending none

/-- C4 counterexample: cancelling a pending trade on behalf of user 7 —
neither the buyer (2) nor the seller (1) — with no explicit reason leaves
the trade in state `cancelled` with `cancel_reason` still null, violating
the claimed iff and the claim that `cancel_transaction` always records a
non-null reason. -/
theorem cancel_leaves_null_reason_in_cancelled_state :
    (cancel_transaction 7 1 tP none).state = TradeState.cancelled ∧
    (cancel_transaction 7 1 tP none).cancel_reason = none ∧
    tP.buyer_id ≠ 7 ∧ (1 : Nat) ≠ 7 := by
  refine ⟨rfl, rfl, by decide, by decide⟩

/-- C4 as amended: (1) the implication "cancel_reason non-null → state =
cancelled" is preserved by every workflow mutation; (2)
`cancel_transaction` always leaves the trade cancelled; (3) it records the
explicit reason when one is passed — but when none is passed and
auto-determination fails the reason stays null (see the counterexample);
(4)/(5) `accpet_transaction` and `confirm_transaction` never change
`cancel_reason`; (6) `start_transaction` creates the record with a null
reason in `pending` state. -/
theorem cancel_reason_only_with_cancelled_state :
    (∀ (t : TradeRecord) (op : TradeOp) (t2 : TradeRecord),
      stepTrade t op = .ok t2 →
      (t.cancel_reason ≠ none → t.state = TradeState.cancelled) →
      (t2.cancel_reason ≠ none → t2.state = TradeState.cancelled)) ∧
    (∀ (u s : Nat) (t : TradeRecord) (r : Option TradeCancelReason),
      (cancel_transaction u s t r).state = TradeState.cancelled) ∧
    (∀ (u s : Nat) (t : TradeRecord) (r : TradeCancelReason),
      (cancel_transaction u s t (some r)).cancel_reason = some r) ∧
    (∀ (t : TradeRecord) (now : Nat) (t2 : TradeRecord),
      accpet_transaction t now = .ok t2 → t2.cancel_reason = t.cancel_reason) ∧
    (∀ (u s : Nat) (t : TradeRecord) (now : Nat) (t2 : TradeRecord),
      confirm_transaction u s t now = .ok t2 →
      t2.cancel_reason = t.cancel_reason) ∧
    (∀ (db : DB) (u : Nat) (item : Item) (now nid : Nat) (db2 : DB)
        (t2 : TradeRecord),
      start_transaction db u item now nid false = .ok (db2, t2) →
      t2.cancel_reason = none ∧ t2.state = TradeState.pending) := by
  refine ⟨?_, fun u s t r => cancel_transaction_state u s t r,
    fun u s t r => cancel_transaction_reason_some u s t r, ?_, ?_, ?_⟩
  · intro t op t2 h hinv hne
    cases op with
    | accept now =>
        obtain ⟨hp, ht2⟩ := accpet_transaction_ok_inv
          (by simpa [stepTrade] using h)
        subst ht2
        have hc : t.cancel_reason ≠ none := by simpa using hne
        have hcc := hinv hc
        rw [hp] at hcc
        exact absurd hcc (by decide)
    | cancel u s r =>
        have h2 : cancel_transaction u s t r = t2 := by
          simpa [stepTrade] using h
        rw [← h2]
        exact cancel_transaction_state u s t r
    | confirm u s now =>
        obtain ⟨hp, ht2⟩ := confirm_transaction_ok_inv
          (by simpa [stepTrade] using h)
        subst ht2
        have hc : t.cancel_reason ≠ none := by simpa using hne
        have hcc := hinv hc
        rw [hp] at hcc
        exact absurd hcc (by decide)
  · intro t now t2 h
    obtain ⟨_, ht2⟩ := accpet_transaction_ok_inv h
    subst ht2
    rfl
  · intro u s t now t2 h
    obtain ⟨_, ht2⟩ := confirm_transaction_ok_inv h
    subst ht2
    rfl
  · intro db u item now nid db2 t2 h
    have h2 := start_transaction_ok_inv h
    simp only at h2
    rw [h2]
    exact ⟨rfl, rfl⟩

/-- The result of accepting `tP` at time 5. -/
def tPacc : TradeRecord :=
  TradeRecord.mk 300 2 100 0 (some 5) none none TradeState.processing none

/-- C4 amended witness: accepting the pending trade preserves its (null)
cancel reason. -/
theorem cancel_reason_only_witness : tPacc.cancel_reason = tP.cancel_reason :=
  cancel_reason_only_with_cancelled_state.2.2.2.1 tP 5 tPacc rfl

/-- A trade that has reached the terminal `success` state. -/
def tS : TradeRecord :=
  TradeRecord.mk 301 2 100 0 (some 1) (some 2) (some 3) TradeState.success none

/-- The same trade after `cancel_transaction`. -/
def tSC : TradeRecord :=
  TradeRecord.mk 301 2 100 0 (some 1) (some 2) (some 3)
    TradeState.cancelled none

/-- C5 counterexample: `cancel_transaction` has no state guard, so a trade
in the terminal `success` state is moved to `cancelled` (with the reason
left null, auto-determination having failed) — `cancelled` is reachable
from `success`. -/
theorem cancelled_reachable_from_success :
    tS.state = TradeState.success ∧
    stepTrade tS (TradeOp.cancel 1 1 none) = .ok tSC ∧
    tSC.state = TradeState.cancelled := by
  refine ⟨rfl, rfl, rfl⟩

/-- C5 as amended: `success` is entered only by `confirm_transaction` and
only from `processing` (so `success` is unreachable without passing
through `processing`, which itself is entered only by accepting a
`pending` trade); `cancel_transaction` succeeds from every state — so
`cancelled` is reachable from `pending` and `processing` as claimed, but
also from `success`, since no guard prevents cancelling a successful
trade. -/
theorem success_entered_only_from_processing :
    (∀ (t : TradeRecord) (op : TradeOp) (t2 : TradeRecord),
      stepTrade t op = .ok t2 → t2.state = TradeState.success →
      t.state = TradeState.success ∨
        (t.state = TradeState.processing ∧
          ∃ u s now, op = TradeOp.confirm u s now)) ∧
    (∀ (u s : Nat) (t : TradeRecord) (r : Option TradeCancelReason),
      stepTrade t (TradeOp.cancel u s r) = .ok (cancel_transaction u s t r) ∧
      (cancel_transaction u s t r).state = TradeState.cancelled) ∧
    (∀ (t : TradeRecord) (now : Nat) (t2 : TradeRecord),
      accpet_transaction t now = .ok t2 →
      t.state = TradeState.pending ∧ t2.state = TradeState.processing) ∧
    (∀ (u s : Nat) (t : TradeRecord) (now : Nat) (t2 : TradeRecord),
      confirm_transaction u s t now = .ok t2 →
      t.state = TradeState.processing ∧ t2.state = TradeState.success) ∧
    (∀ (db : DB) (u : Nat) (item : Item) (now nid : Nat) (db2 : DB)
        (t2 : TradeRecord),
      start_transaction db u item now nid false = .ok (db2, t2) →
      t2.state = TradeState.pending) := by
  refine ⟨?_, ?_, ?_, ?_, ?_⟩
  · intro t op t2 h hs2
    cases op with
    | accept now =>
        obtain ⟨hp, ht2⟩ := accpet_transaction_ok_inv
          (by simpa [stepTrade] using h)
        subst ht2
        exact absurd hs2 (by simp)
    | cancel u s r =>
        have h2 : cancel_transaction u s t r = t2 := by
          simpa [stepTrade] using h
        rw [← h2] at hs2
        rw [cancel_transaction_state u s t r] at hs2
        exact absurd hs2 (by decide)
    | confirm u s now =>
        obtain ⟨hp, _⟩ := confirm_transaction_ok_inv
          (by simpa [stepTrade] using h)
        exact .inr ⟨hp, u, s, now, rfl⟩
  · intro u s t r
    exact ⟨rfl, cancel_transaction_state u s t r⟩
  · intro t now t2 h
    obtain ⟨hp, ht2⟩ := accpet_transaction_ok_inv h
    subst ht2
    exact ⟨hp, rfl⟩
  · intro u s t now t2 h
    obtain ⟨hp, ht2⟩ := confirm_transaction_ok_inv h
    subst ht2
    exact ⟨hp, rfl⟩
  · intro db u item now nid db2 t2 h
    have h2 := start_transaction_ok_inv h
    simp only at h2
    rw [h2]

/-- A processing trade by buyer 2 on item 100 (seller 1). -/
def tProc : TradeRecord :=
  TradeRecord.mk 302 2 100 0 (some 1) none none TradeState.processing none

/-- The result of the buyer confirming `tProc` at time 9. -/
def tProcC : TradeRecord :=
  TradeRecord.mk 302 2 100 0 (some 1) (some 9) (some 9)
    TradeState.success none

/-- C5 amended witness: the buyer confirming a processing trade reaches
`success` from `processing`. -/
theorem success_entered_only_from_processing_witness :
    tProc.state = TradeState.processing ∧ tProcC.state = TradeState.success :=
  success_entered_only_from_processing.2.2.2.1 2 1 tProc 9 tProcC rfl

end STB
